import Mathlib

/-!
Verification development for the xspec parameter-estimation engine
(`xspec/paramSE.py`, `xspec/estimate.py`).

The Python source is shallowly embedded over exact rationals: torch scalar
tensors become `ℚ`, spectra and response curves become `List ℚ`, reference
voltages (torch int32) become `List ℤ`, and fallible Python control flow
becomes `Except`.  Floating-point NaN propagation, which the fit loop
inspects with `torch.isnan`, is modelled by the two-constructor type `FVal`
(a finite rational or NaN); the optimization loop never does arithmetic on
costs, it only stores and compares them, so this is faithful.
-/

/-! ## Clamped parameter reads (paramSE.py, Source_Model / Filter_Model / Scintillator_Model)

`torch.clamp(x, 0, 1)` is `min (max x 0) 1`.  Each model stores a normalized
parameter `n = (P - lower) / scale` with `scale = upper - lower` and exposes
the physical value `clamp(n, 0, 1) * scale + lower` (paramSE.py lines
148, 159, 209, 278). -/

def clampT (x lo hi : ℚ) : ℚ := min (max x lo) hi

/-- Embedding of `Source_Model`: the attributes set by
`Source_Model.__init__` (paramSE.py lines 118-137).  Note the class has no
attribute named `voltage`; reads of `self.voltage` go through
`Source_Model.getattr_scalar` below, mirroring Python attribute lookup. -/
structure Source_Model where
  src_voltage_list : List ℤ
  src_spec_list : List (List ℚ)
  takeoff_angle_cur : ℚ
  volt_lower : ℚ
  volt_scale : ℚ
  normalized_voltage : ℚ
  toa_lower : ℚ
  toa_scale : ℚ
  normalized_takeoff_angle : ℚ

/-- paramSE.py line 148: `torch.clamp(self.normalized_voltage, 0, 1) * self.volt_scale + self.volt_lower`. -/
def Source_Model.get_voltage (m : Source_Model) : ℚ :=
  clampT m.normalized_voltage 0 1 * m.volt_scale + m.volt_lower

/-- paramSE.py line 159. -/
def Source_Model.get_takeoff_angle (m : Source_Model) : ℚ :=
  clampT m.normalized_takeoff_angle 0 1 * m.toa_scale + m.toa_lower

/-- Embedding of `Filter_Model` (paramSE.py lines 191-198). -/
structure Filter_Model where
  lower : ℚ
  scale : ℚ
  normalized_fltr_th : ℚ

/-- paramSE.py line 209. -/
def Filter_Model.get_fltr_th (m : Filter_Model) : ℚ :=
  clampT m.normalized_fltr_th 0 1 * m.scale + m.lower

/-- Embedding of `Scintillator_Model` (paramSE.py lines 259-266). -/
structure Scintillator_Model where
  lower : ℚ
  scale : ℚ
  normalized_scint_th : ℚ

/-- paramSE.py line 278. -/
def Scintillator_Model.get_scint_th (m : Scintillator_Model) : ℚ :=
  clampT m.normalized_scint_th 0 1 * m.scale + m.lower

lemma clampT_nonneg (n : ℚ) : 0 ≤ clampT n 0 1 := by
  unfold clampT
  have h0 : (0:ℚ) ≤ max n 0 := le_max_right n 0
  exact le_min h0 (by norm_num)

lemma clampT_le_one (n : ℚ) : clampT n 0 1 ≤ 1 := min_le_right _ 1

lemma clampT_affine_bounds (n lower upper : ℚ) (h : lower < upper) :
    lower ≤ clampT n 0 1 * (upper - lower) + lower ∧
      clampT n 0 1 * (upper - lower) + lower ≤ upper := by
  have h0 : 0 ≤ clampT n 0 1 := clampT_nonneg n
  have h1 : clampT n 0 1 ≤ 1 := clampT_le_one n
  have hs : (0:ℚ) ≤ upper - lower := by linarith
  constructor
  · nlinarith
  · nlinarith

/-- Claim C1: for every Source_Model, Filter_Model and Scintillator_Model, and
every value of the internal normalized parameter (including values outside
[0,1]), the value read by `get_voltage` / `get_fltr_th` / `get_scint_th`
equals `clamp(n, 0, 1) * (upper - lower) + lower` and lies in the declared
bound `[lower, upper]`, assuming `lower < upper`. -/
theorem C1_clamped_read_in_bound (lower upper : ℚ) (h : lower < upper)
    (sm : Source_Model) (fm : Filter_Model) (cm : Scintillator_Model)
    (hs1 : sm.volt_lower = lower) (hs2 : sm.volt_scale = upper - lower)
    (hf1 : fm.lower = lower) (hf2 : fm.scale = upper - lower)
    (hc1 : cm.lower = lower) (hc2 : cm.scale = upper - lower) :
    (sm.get_voltage = clampT sm.normalized_voltage 0 1 * (upper - lower) + lower ∧
      lower ≤ sm.get_voltage ∧ sm.get_voltage ≤ upper) ∧
    (fm.get_fltr_th = clampT fm.normalized_fltr_th 0 1 * (upper - lower) + lower ∧
      lower ≤ fm.get_fltr_th ∧ fm.get_fltr_th ≤ upper) ∧
    (cm.get_scint_th = clampT cm.normalized_scint_th 0 1 * (upper - lower) + lower ∧
      lower ≤ cm.get_scint_th ∧ cm.get_scint_th ≤ upper) := by
  unfold Source_Model.get_voltage Filter_Model.get_fltr_th Scintillator_Model.get_scint_th
  rw [hs1, hs2, hf1, hf2, hc1, hc2]
  refine ⟨⟨rfl, ?_⟩, ⟨rfl, ?_⟩, ⟨rfl, ?_⟩⟩
  · exact clampT_affine_bounds _ lower upper h
  · exact clampT_affine_bounds _ lower upper h
  · exact clampT_affine_bounds _ lower upper h

/-- A concrete source model whose raw normalized voltage sits far outside
[0, 1], as after a wild optimizer step. -/
def smW : Source_Model :=
  { src_voltage_list := [], src_spec_list := [], takeoff_angle_cur := 0,
    volt_lower := 0, volt_scale := 2 - 0, normalized_voltage := 5,
    toa_lower := 0, toa_scale := 2 - 0, normalized_takeoff_angle := 0 }

def fmW : Filter_Model := { lower := 0, scale := 2 - 0, normalized_fltr_th := -3 }

def cmW : Scintillator_Model := { lower := 0, scale := 2 - 0, normalized_scint_th := 7 }

/-- Witness for C1 at `lower = 0`, `upper = 2` with raw parameters 5, -3 and 7. -/
theorem C1_clamped_read_in_bound_witness :
    (smW.get_voltage = clampT smW.normalized_voltage 0 1 * ((2:ℚ) - 0) + 0 ∧
      (0:ℚ) ≤ smW.get_voltage ∧ smW.get_voltage ≤ 2) ∧
    (fmW.get_fltr_th = clampT fmW.normalized_fltr_th 0 1 * ((2:ℚ) - 0) + 0 ∧
      (0:ℚ) ≤ fmW.get_fltr_th ∧ fmW.get_fltr_th ≤ 2) ∧
    (cmW.get_scint_th = clampT cmW.normalized_scint_th 0 1 * ((2:ℚ) - 0) + 0 ∧
      (0:ℚ) ≤ cmW.get_scint_th ∧ cmW.get_scint_th ≤ 2) :=
  C1_clamped_read_in_bound 0 2 (by norm_num) smW fmW cmW rfl rfl rfl rfl rfl rfl

/-! ## Source-spectrum interpolation (paramSE.py, interp_src_spectra, lines 41-101)

`np.searchsorted(a, v)` (side `left`) on a sorted array returns the leftmost
insertion index, i.e. the length of the prefix of elements `< v`; on sorted
input that is what the binary search computes, and the reference voltage list
is required to be sorted (spec section 3).  Python list and torch tensor
indexing wraps negative indices: `l[-k]` is `l[len(l) - k]`, modelled by
`pyIdx`. -/


def searchsorted_left (l : List ℤ) (v : ℚ) : ℕ :=
  (l.takeWhile (fun x : ℤ => decide ((x : ℚ) < v))).length

def pyIdx (n : ℕ) (i : ℤ) : ℕ :=
  if 0 ≤ i then i.toNat else n - (-i).toNat

def pyGetZ (l : List ℤ) (i : ℤ) : ℤ := l.getD (pyIdx l.length i) 0

def pyGetS (l : List (List ℚ)) (i : ℤ) : List ℚ := l.getD (pyIdx l.length i) []

def pyGetQ (l : List ℚ) (i : ℤ) : ℚ := l.getD (pyIdx l.length i) 0

def pySet (l : List ℚ) (i : ℤ) (q : ℚ) : List ℚ := l.set (pyIdx l.length i) q

/-- paramSE.py lines 85-92: extend `f0` to be negative on the sample indices
`v` in `range(v0, v1)`; the spectra are indexed per keV, so the loop indexes
them directly by the voltage value.  The guard `v == v1` is kept from the
source even though it never fires inside `range(v0, v1)`. -/
def f0_modify (f0 f1 : List ℚ) (v0 v1 : ℤ) : List ℚ :=
  (List.range (v1 - v0).toNat).foldl
    (fun acc (k : ℕ) =>
      let v : ℤ := v0 + (k : ℤ)
      if v = v1 then pySet acc v 0
      else
        let r : ℚ := ((v : ℚ) - (v0 : ℚ)) / ((v1 : ℚ) - (v0 : ℚ))
        pySet acc v (-r / (1 - r) * pyGetQ f1 v))
    f0

/-- Embedding of `interp_src_spectra` (paramSE.py lines 41-101, torch mode):
find the bracketing index with `searchsorted`, take the left neighbour with
Python index `index - 1` (which wraps to the end of the table when
`index = 0`), return the clamped left spectrum when the query is past the
table, otherwise blend with weight `rr` and clamp at zero. -/
def interp_src_spectra (voltage_list : List ℤ) (src_spec_list : List (List ℚ))
    (interp_voltage : ℚ) : List ℚ :=
  let index := searchsorted_left voltage_list interp_voltage
  let v0 := pyGetZ voltage_list ((index : ℤ) - 1)
  let f0 := pyGetS src_spec_list ((index : ℤ) - 1)
  if voltage_list.length ≤ index then
    f0.map (fun q => max q 0)
  else
    let v1 := voltage_list.getD index 0
    let f1 := src_spec_list.getD index []
    let f0m := f0_modify f0 f1 v0 v1
    let rr := (interp_voltage - (v0 : ℚ)) / ((v1 : ℚ) - (v0 : ℚ))
    (List.zipWith (fun b a => rr * b + (1 - rr) * a) f1 f0m).map (fun q => max q 0)

lemma getD_of_lt (l : List α) (n : ℕ) (d : α) (h : n < l.length) : l.getD n d = l[n] := by
  simp [List.getD_eq_getElem?_getD, List.getElem?_eq_getElem h]

lemma takeWhile_all (p : α → Bool) :
    ∀ (l : List α), (∀ x ∈ l, p x = true) → l.takeWhile p = l := by
  intro l
  induction l with
  | nil => intro _; rfl
  | cons a t ih =>
      intro h
      rw [List.takeWhile_cons, h a (by simp)]
      simp only [ite_true]
      rw [ih (fun x hx => h x (by simp [hx]))]

lemma takeWhile_length_prefix (p : α → Bool) :
    ∀ (l1 : List α) (a : α) (l2 : List α),
      (∀ x ∈ l1, p x = true) → p a = false →
      ((l1 ++ a :: l2).takeWhile p).length = l1.length := by
  intro l1
  induction l1 with
  | nil =>
      intro a l2 _ hpa
      simp [List.takeWhile_cons, hpa]
  | cons b t ih =>
      intro a l2 h hpa
      rw [List.cons_append, List.takeWhile_cons, h b (by simp)]
      simp only [ite_true, List.length_cons]
      rw [ih a l2 (fun x hx => h x (by simp [hx])) hpa]

lemma f0_modify_length (f0 f1 : List ℚ) (v0 v1 : ℤ) :
    (f0_modify f0 f1 v0 v1).length = f0.length := by
  unfold f0_modify
  generalize List.range (v1 - v0).toNat = ks
  induction ks generalizing f0 with
  | nil => rfl
  | cons k ks ih =>
      rw [List.foldl_cons, ih]
      by_cases h : (v0 + (k : ℤ)) = v1 <;> simp [pySet, h]

/-- On a strictly sorted voltage table, `np.searchsorted` queried at the
`i`-th reference voltage returns `i` (leftmost insertion point). -/
lemma searchsorted_at_ref (vl : List ℤ)
    (hp : List.Pairwise (fun a b => a < b) vl) (i : ℕ) (hi : i < vl.length) :
    searchsorted_left vl ((vl[i] : ℤ) : ℚ) = i := by
  unfold searchsorted_left
  have h1 : ∀ x ∈ vl.take i, (fun x : ℤ => decide ((x : ℚ) < ((vl[i] : ℤ) : ℚ))) x = true := by
    intro x hx
    rw [List.mem_iff_getElem] at hx
    obtain ⟨j, hj, hxe⟩ := hx
    have hj2 : j < i := by
      have := List.length_take i vl ▸ hj
      omega
    have hjlen : j < vl.length := by omega
    rw [List.getElem_take] at hxe
    have hji : vl[j] < vl[i] :=
      (List.pairwise_iff_getElem.mp hp) j i hjlen hi hj2
    simp only [decide_eq_true_eq]
    rw [← hxe]
    exact_mod_cast hji
  have h2 : (fun x : ℤ => decide ((x : ℚ) < ((vl[i] : ℤ) : ℚ))) (vl[i]) = false := by
    simp
  have key := takeWhile_length_prefix _ (vl.take i) (vl[i]) (vl.drop (i + 1)) h1 h2
  have hdecomp : vl.take i ++ vl[i] :: vl.drop (i + 1) = vl := by
    conv_rhs => rw [← List.take_append_drop i vl]
    rw [List.drop_eq_getElem_cons hi]
  rw [hdecomp] at key
  rw [key, List.length_take]
  omega

/-- Claim C7: querying `interp_src_spectra` at an exact reference voltage
`v_i` with `i ≥ 1` returns the stored spectrum `f_i` unchanged: the blend
weight `rr` is exactly 1, so the modified left spectrum contributes nothing,
and the final clamp is the identity on the (nonnegative) spectrum.  The
hypotheses `hv0`, `hb0`, `hb1` record that the per-keV indexing in the
extension loop stays inside both spectra, which the Python source needs to
run without an IndexError. -/
theorem C7_interp_at_ref_voltage (vl : List ℤ) (sl : List (List ℚ)) (i : ℕ)
    (hp : List.Pairwise (fun a b => a < b) vl)
    (h1 : 1 ≤ i) (hi : i < vl.length) (hlen : sl.length = vl.length)
    (hsame : (sl.getD (i - 1) []).length = (sl.getD i []).length)
    (hnneg : ∀ q ∈ sl.getD i [], 0 ≤ q)
    (hv0 : 0 ≤ vl.getD (i - 1) 0)
    (hb0 : (vl.getD i 0).toNat ≤ (sl.getD (i - 1) []).length)
    (hb1 : (vl.getD i 0).toNat ≤ (sl.getD i []).length) :
    interp_src_spectra vl sl ((vl.getD i 0 : ℤ) : ℚ) = sl.getD i [] := by
  have hgi : vl.getD i 0 = vl[i] := getD_of_lt vl i 0 hi
  have hss : searchsorted_left vl ((vl.getD i 0 : ℤ) : ℚ) = i := by
    rw [hgi]; exact searchsorted_at_ref vl hp i hi
  have hpyV : pyIdx vl.length ((i : ℤ) - 1) = i - 1 := by
    unfold pyIdx
    rw [if_pos (by omega)]
    omega
  have hpyS : pyIdx sl.length ((i : ℤ) - 1) = i - 1 := by
    unfold pyIdx
    rw [if_pos (by omega)]
    omega
  have hibound : i - 1 < vl.length := by omega
  have hv01 : pyGetZ vl ((i : ℤ) - 1) < vl.getD i 0 := by
    unfold pyGetZ
    rw [hpyV, hgi, getD_of_lt vl (i - 1) 0 hibound]
    exact (List.pairwise_iff_getElem.mp hp) (i - 1) i hibound hi (by omega)
  have hden : ((vl.getD i 0 : ℤ) : ℚ) - ((pyGetZ vl ((i : ℤ) - 1) : ℤ) : ℚ) ≠ 0 := by
    have hcast : ((pyGetZ vl ((i : ℤ) - 1) : ℤ) : ℚ) < ((vl.getD i 0 : ℤ) : ℚ) := by
      exact_mod_cast hv01
    linarith
  have hrr : (((vl.getD i 0 : ℤ) : ℚ) - ((pyGetZ vl ((i : ℤ) - 1) : ℤ) : ℚ)) /
      (((vl.getD i 0 : ℤ) : ℚ) - ((pyGetZ vl ((i : ℤ) - 1) : ℤ) : ℚ)) = 1 :=
    div_self hden
  simp only [interp_src_spectra, hss]
  rw [if_neg (by omega : ¬ vl.length ≤ i)]
  have hf0 : pyGetS sl ((i : ℤ) - 1) = sl.getD (i - 1) [] := by
    unfold pyGetS; rw [hpyS]
  simp only [hrr, hf0]
  have hf0mlen : (f0_modify (sl.getD (i - 1) []) (sl.getD i [])
      (pyGetZ vl ((i : ℤ) - 1)) (vl.getD i 0)).length = (sl.getD i []).length := by
    rw [f0_modify_length]; exact hsame
  apply List.ext_getElem
  · rw [List.length_map, List.length_zipWith, hf0mlen, min_self]
  · intro n hn1 hn2
    simp only [List.getElem_map, List.getElem_zipWith]
    have hcomb : ∀ b a : ℚ, 1 * b + (1 - 1) * a = b := by intro b a; ring
    rw [hcomb]
    refine max_eq_left (hnneg _ ?_)
    exact List.getElem_mem _

/-- Witness for C7: table of voltages 1 and 2 with spectra [3,4] and [5,6];
querying at the exact reference voltage 2 returns [5,6] unchanged. -/
theorem C7_interp_at_ref_voltage_witness :
    interp_src_spectra [1, 2] [[3, 4], [5, 6]]
        ((([1, 2] : List ℤ).getD 1 0 : ℤ) : ℚ) =
      ([[3, 4], [5, 6]] : List (List ℚ)).getD 1 [] :=
  C7_interp_at_ref_voltage [1, 2] [[3, 4], [5, 6]] 1 (by decide) (by decide)
    (by decide) (by decide) (by decide) (by decide) (by decide) (by decide) (by decide)

/-- Claim C8: a query voltage strictly above every reference voltage yields
the last reference spectrum with negative entries clamped to zero, with no
extrapolation: `searchsorted` returns the table length, so the early-return
branch fires with the wrapped Python index `length - 1`. -/
theorem C8_interp_above_table (vl : List ℤ) (sl : List (List ℚ)) (v : ℚ)
    (hne : vl ≠ []) (hlen : sl.length = vl.length)
    (hgt : ∀ x ∈ vl, (x : ℚ) < v) :
    interp_src_spectra vl sl v = (sl.getD (sl.length - 1) []).map (fun q => max q 0) := by
  have hpos : 0 < vl.length := List.length_pos.mpr hne
  have hss : searchsorted_left vl v = vl.length := by
    unfold searchsorted_left
    rw [takeWhile_all _ vl (fun x hx => by
      simp only [decide_eq_true_eq]; exact hgt x hx)]
  have hpy : pyIdx sl.length ((vl.length : ℤ) - 1) = sl.length - 1 := by
    unfold pyIdx
    rw [if_pos (by omega)]
    omega
  simp only [interp_src_spectra, hss]
  rw [if_pos (le_refl _)]
  unfold pyGetS
  rw [hpy]

/-- Witness for C8: querying at voltage 4, above the whole table [2,3],
returns the last spectrum [2,-2] floored at zero. -/
theorem C8_interp_above_table_witness :
    interp_src_spectra [2, 3] [[1, -1], [2, -2]] 4 =
      (([[1, -1], [2, -2]] : List (List ℚ)).getD
          (([[1, -1], [2, -2]] : List (List ℚ)).length - 1) []).map (fun q => max q 0) :=
  C8_interp_above_table [2, 3] [[1, -1], [2, -2]] 4 (by decide) (by decide) (by decide)

/-- The value `interp_src_spectra` produces for a query below the whole
table, spelled out: an affine blend of the FIRST spectrum (weight `rr`
computed against the first and LAST reference voltages) and the LAST
spectrum (weight `1 - rr`), clamped at zero. -/
def first_last_blend (vl : List ℤ) (sl : List (List ℚ)) (v : ℚ) : List ℚ :=
  let vfirst := vl.getD 0 0
  let vlast := vl.getD (vl.length - 1) 0
  let rr := (v - (vlast : ℚ)) / ((vfirst : ℚ) - (vlast : ℚ))
  (List.zipWith (fun b a => rr * b + (1 - rr) * a)
      (sl.getD 0 []) (sl.getD (sl.length - 1) [])).map (fun q => max q 0)

/-- Claim C10: for a query voltage strictly below the smallest reference
voltage, `searchsorted` returns 0, the left bracket is selected with Python
index -1 which wraps to the LAST table entry, the extension loop
`range(v_last, v_first)` is empty, and the result is the clamped blend of
the first and last spectra. -/
theorem C10_interp_below_table (vl : List ℤ) (sl : List (List ℚ)) (v : ℚ)
    (hp : List.Pairwise (fun a b => a < b) vl)
    (h2 : 2 ≤ vl.length) (hlen : sl.length = vl.length)
    (hv : v < ((vl.getD 0 0 : ℤ) : ℚ))
    (huni : (sl.getD 0 []).length = (sl.getD (sl.length - 1) []).length) :
    searchsorted_left vl v = 0 ∧
      interp_src_spectra vl sl v = first_last_blend vl sl v := by
  have hss : searchsorted_left vl v = 0 := by
    cases vl with
    | nil => simp at h2
    | cons a t =>
        unfold searchsorted_left
        rw [List.takeWhile_cons]
        have hva : ((a : ℚ) < v) = False := by
          simp only [eq_iff_iff, iff_false, not_lt]
          exact le_of_lt hv
        simp [hva]
  refine ⟨hss, ?_⟩
  have hpy : ∀ n : ℕ, pyIdx n ((0 : ℤ) - 1) = n - 1 := by
    intro n
    unfold pyIdx
    norm_num
  have hv0eq : pyGetZ vl ((0 : ℤ) - 1) = vl.getD (vl.length - 1) 0 := by
    unfold pyGetZ; rw [hpy]
  have hf0eq : pyGetS sl ((0 : ℤ) - 1) = sl.getD (sl.length - 1) [] := by
    unfold pyGetS; rw [hpy]
  have hlast : vl.length - 1 < vl.length := by omega
  have hfl : vl.getD 0 0 < vl.getD (vl.length - 1) 0 := by
    rw [getD_of_lt vl 0 0 (by omega), getD_of_lt vl (vl.length - 1) 0 hlast]
    exact (List.pairwise_iff_getElem.mp hp) 0 (vl.length - 1) (by omega) hlast (by omega)
  have hz : (vl.getD 0 0 - vl.getD (vl.length - 1) 0).toNat = 0 := by
    omega
  have hmod : f0_modify (sl.getD (sl.length - 1) []) (sl.getD 0 [])
      (vl.getD (vl.length - 1) 0) (vl.getD 0 0) = sl.getD (sl.length - 1) [] := by
    unfold f0_modify
    rw [hz]
    rfl
  simp only [interp_src_spectra, hss]
  rw [if_neg (by omega : ¬ vl.length ≤ 0)]
  simp only [Nat.cast_zero, hv0eq, hf0eq, hmod]
  rfl

/-- Witness for C10: table [2,5] with spectra [1,1] and [3,3], queried at
voltage 1 below the table. -/
theorem C10_interp_below_table_witness :
    searchsorted_left [2, 5] 1 = 0 ∧
      interp_src_spectra [2, 5] [[1, 1], [3, 3]] 1 =
        first_last_blend [2, 5] [[1, 1], [3, 3]] 1 :=
  C10_interp_below_table [2, 5] [[1, 1], [3, 3]] 1 (by decide) (by decide)
    (by decide) (by decide) (by decide)

/-! ## Composite forward model (paramSE.py, spec_distrb_energy_resp.forward, lines 345-371)

`torch.trapz(y, x)` on equal-length 1-D tensors is the composite trapezoid
sum over consecutive grid points.  The component sub-modules evaluated at
the energy grid come in as precomputed response curves; `forward` selects
them through a `Model_combination`, multiplies them pointwise, renormalizes
by the trapezoid integral and integrates each row of the forward matrix `F`
against the normalized response. -/

def trapz : List ℚ → List ℚ → ℚ
  | y0 :: y1 :: ys, x0 :: x1 :: xs => (x1 - x0) * (y0 + y1) / 2 + trapz (y1 :: ys) (x1 :: xs)
  | _, _ => 0

def pmul (a b : List ℚ) : List ℚ := List.zipWith (fun x y => x * y) a b

structure Model_combination where
  src_ind : ℕ
  fltr_ind_list : List ℕ
  scint_ind : ℕ

/-- paramSE.py lines 362-364: start from the response of the first filter
index and multiply in the responses of the remaining indices. -/
def fltr_chain (fltr_resp_list : List (List ℚ)) : List ℕ → List ℚ
  | [] => []
  | i0 :: rest =>
      rest.foldl (fun acc j => pmul acc (fltr_resp_list.getD j [])) (fltr_resp_list.getD i0 [])

/-- paramSE.py line 368: `total_sder = src_func * fltr_func * scint_func`. -/
def total_response (src_resp_list fltr_resp_list scint_resp_list : List (List ℚ))
    (mc : Model_combination) : List ℚ :=
  pmul (pmul (src_resp_list.getD mc.src_ind []) (fltr_chain fltr_resp_list mc.fltr_ind_list))
    (scint_resp_list.getD mc.scint_ind [])

/-- paramSE.py lines 361-371: the full `spec_distrb_energy_resp.forward`,
parametrized by the response curves the three kinds of sub-modules return
on the energy grid.  `F` is the forward matrix, one row per measurement. -/
def sder_forward (energies : List ℚ)
    (src_resp_list fltr_resp_list scint_resp_list : List (List ℚ))
    (F : List (List ℚ)) (mc : Model_combination) : List ℚ :=
  let total_sder := total_response src_resp_list fltr_resp_list scint_resp_list mc
  let total_norm := total_sder.map (fun q => q / trapz total_sder energies)
  F.map (fun row => trapz (pmul row total_norm) energies)

lemma trapz_smul (c : ℚ) : ∀ (y x : List ℚ),
    trapz (y.map (fun q => c * q)) x = c * trapz y x := by
  intro y
  induction y with
  | nil => intro x; simp [trapz]
  | cons y0 ytl ih =>
      intro x
      cases ytl with
      | nil => cases x <;> simp [trapz]
      | cons y1 ytl2 =>
          cases x with
          | nil => simp [trapz]
          | cons x0 xtl =>
              cases xtl with
              | nil => simp [trapz]
              | cons x1 xtl2 =>
                  simp only [List.map_cons, trapz]
                  have := ih (x1 :: xtl2)
                  simp only [List.map_cons] at this
                  rw [this]
                  ring

/-- Claim C4: `spec_distrb_energy_resp.forward` renormalizes the pointwise
product of the selected source, filter-chain and scintillator responses so
that its trapezoidal integral over the energy grid is 1, and returns, for
each row of `F`, the trapezoidal integral of that row times the normalized
total response. -/
theorem C4_forward_normalized (energies : List ℚ)
    (src_resp_list fltr_resp_list scint_resp_list : List (List ℚ))
    (F : List (List ℚ)) (mc : Model_combination)
    (hchain : mc.fltr_ind_list ≠ [])
    (h : trapz (total_response src_resp_list fltr_resp_list scint_resp_list mc) energies ≠ 0) :
    trapz ((total_response src_resp_list fltr_resp_list scint_resp_list mc).map
        (fun q => q / trapz (total_response src_resp_list fltr_resp_list scint_resp_list mc) energies))
        energies = 1 ∧
    sder_forward energies src_resp_list fltr_resp_list scint_resp_list F mc =
      F.map (fun row => trapz (pmul row
        ((total_response src_resp_list fltr_resp_list scint_resp_list mc).map
          (fun q => q / trapz (total_response src_resp_list fltr_resp_list scint_resp_list mc) energies)))
        energies) := by
  constructor
  · have hmap : (total_response src_resp_list fltr_resp_list scint_resp_list mc).map
        (fun q => q / trapz (total_response src_resp_list fltr_resp_list scint_resp_list mc) energies) =
        (total_response src_resp_list fltr_resp_list scint_resp_list mc).map
        (fun q => (trapz (total_response src_resp_list fltr_resp_list scint_resp_list mc) energies)⁻¹ * q) :=
      List.map_congr_left (fun a _ => by rw [div_eq_inv_mul])
    rw [hmap, trapz_smul]
    exact inv_mul_cancel₀ h
  · rfl

/-- Concrete model combination for the C4 witness. -/
def mcW : Model_combination := { src_ind := 0, fltr_ind_list := [0], scint_ind := 0 }

/-- Witness for C4 on a two-point energy grid with constant responses. -/
theorem C4_forward_normalized_witness :
    trapz ((total_response [[1, 1]] [[1, 1]] [[1, 1]] mcW).map
        (fun q => q / trapz (total_response [[1, 1]] [[1, 1]] [[1, 1]] mcW) [0, 1])) [0, 1] = 1 ∧
    sder_forward [0, 1] [[1, 1]] [[1, 1]] [[1, 1]] [[1, 1]] mcW =
      [[1, 1]].map (fun row => trapz (pmul row
        ((total_response [[1, 1]] [[1, 1]] [[1, 1]] mcW).map
          (fun q => q / trapz (total_response [[1, 1]] [[1, 1]] [[1, 1]] mcW) [0, 1]))) [0, 1]) :=
  C4_forward_normalized [0, 1] [[1, 1]] [[1, 1]] [[1, 1]] [[1, 1]] mcW
    (by decide) (by simp [trapz, total_response, pmul, fltr_chain, mcW])

/-! ## Source takeoff-angle correction (paramSE.py, lines 21-38 and 161-172)

`philibert_absorption_correction_factor(voltage, takeOffAngle, energies)`
has three required positional parameters.  `takeoff_angle_conversion_factor`
(line 38) invokes it with only two arguments, and `Source_Model.forward`
(line 171) reads `self.voltage`, an attribute `__init__` never sets.  Python
call and attribute semantics are modelled explicitly so these two slips are
visible: heterogeneous argument tuples are `PyVal` lists, and failures are
`PyErr` values.  The mathematical three-argument Philibert factor itself
(a transcendental function of the takeoff angle through `sin`, composed
with the tabulated attenuation coefficient) is abstracted as `phil3`. -/

inductive PyVal where
  | scalar : ℚ → PyVal
  | arr : List ℚ → PyVal
deriving DecidableEq

inductive PyErr where
  | typeError : String → PyErr
  | attributeError : String → PyErr
deriving DecidableEq

/-- Python-call semantics for the three-parameter
`philibert_absorption_correction_factor`: a call with anything other than a
scalar voltage, a scalar angle, and an energies array raises TypeError. -/
def philibert_call (phil3 : ℚ → ℚ → List ℚ → List ℚ) :
    List PyVal → Except PyErr (List ℚ)
  | [PyVal.scalar v, PyVal.scalar a, PyVal.arr es] => Except.ok (phil3 v a es)
  | _ => Except.error (PyErr.typeError
      "philibert_absorption_correction_factor missing 1 required positional argument: energies")

/-- paramSE.py line 38, exactly as written: both inner calls pass only
`voltage` and an angle, omitting `energies`. -/
def takeoff_angle_conversion_factor (phil3 : ℚ → ℚ → List ℚ → List ℚ)
    (voltage takeOffAngle_cur takeOffAngle_new : ℚ) (energies : List ℚ) :
    Except PyErr (List ℚ) :=
  match philibert_call phil3 [PyVal.scalar voltage, PyVal.scalar takeOffAngle_new] with
  | Except.error e => Except.error e
  | Except.ok numer =>
      match philibert_call phil3 [PyVal.scalar voltage, PyVal.scalar takeOffAngle_cur] with
      | Except.error e => Except.error e
      | Except.ok denom => Except.ok (List.zipWith (fun a b => a / b) numer denom)

/-- Python attribute lookup on a `Source_Model` for scalar attributes:
`__init__` (paramSE.py lines 118-137) sets `volt_lower`, `volt_scale`,
`normalized_voltage`, `toa_lower`, `toa_scale`, `normalized_takeoff_angle`
(plus the non-scalar `source`); any other name raises AttributeError. -/
def Source_Model.getattr_scalar (m : Source_Model) (attr : String) : Except PyErr ℚ :=
  if attr = "volt_lower" then Except.ok m.volt_lower
  else if attr = "volt_scale" then Except.ok m.volt_scale
  else if attr = "normalized_voltage" then Except.ok m.normalized_voltage
  else if attr = "toa_lower" then Except.ok m.toa_lower
  else if attr = "toa_scale" then Except.ok m.toa_scale
  else if attr = "normalized_takeoff_angle" then Except.ok m.normalized_takeoff_angle
  else Except.error (PyErr.attributeError attr)

/-- paramSE.py lines 161-172: `forward` interpolates the spectrum at the
clamped voltage, then evaluates `self.voltage` to build the takeoff-angle
conversion factor and multiplies it in. -/
def Source_Model.forward (m : Source_Model) (phil3 : ℚ → ℚ → List ℚ → List ℚ)
    (energies : List ℚ) : Except PyErr (List ℚ) :=
  let src_spec := interp_src_spectra m.src_voltage_list m.src_spec_list m.get_voltage
  match m.getattr_scalar "voltage" with
  | Except.error e => Except.error e
  | Except.ok voltage =>
      match takeoff_angle_conversion_factor phil3 voltage m.takeoff_angle_cur
          m.get_takeoff_angle energies with
      | Except.error e => Except.error e
      | Except.ok factor => Except.ok (pmul src_spec factor)

/-- Claim C5 (code bug): `Source_Model.forward` can never produce the
spectrum times the Philibert-factor ratio.  Evaluating `self.voltage`
raises AttributeError for every model and every energy grid, and even with
that fixed, `takeoff_angle_conversion_factor` always raises TypeError
because it passes 2 of the 3 required arguments of the Philibert factor. -/
theorem C5_forward_always_raises :
    (∀ (m : Source_Model) (phil3 : ℚ → ℚ → List ℚ → List ℚ) (energies : List ℚ),
      m.forward phil3 energies = Except.error (PyErr.attributeError "voltage")) ∧
    (∀ (phil3 : ℚ → ℚ → List ℚ → List ℚ) (voltage toaCur toaNew : ℚ) (energies : List ℚ),
      takeoff_angle_conversion_factor phil3 voltage toaCur toaNew energies =
        Except.error (PyErr.typeError
          "philibert_absorption_correction_factor missing 1 required positional argument: energies")) := by
  constructor
  · intro m phil3 energies
    rfl
  · intro phil3 voltage toaCur toaNew energies
    rfl

/-! ## Per-case fit loop (paramSE.py, param_based_spec_estimate_cell, lines 403-537)

The loop is embedded with its numeric effects abstracted into a `CellInput`:
`cost k` is the value `closure()` computes from the parameters current at
iteration `k` (the closure is deterministic in the parameters, so the
re-evaluation `closure().item()` at the two early-return sites yields the
same value again); `postCost k` is the value bound to the `cost` variable
after the optimizer step of iteration `k` (for Adam this is `cost k`, for
NNAT_LBFGS it is the line-search result); `gradNan k` is the result of
`check_gradients_for_nan(model)` at iteration `k` (that helper lives in the
package's `_utils` module, which is not among the provided sources; the
spec describes it as detecting non-finite gradients, so it stays abstract);
`params k` is the `state_dict` — exactly the registered `Parameter`
tensors, i.e. the optimizable normalized parameters — before the step of
iteration `k`, so the step of iteration `k` turns `params k` into
`params (k+1)`.

Costs live in `FVal`: a finite rational or the float NaN.  `torch.isnan`
is `isnanF`. -/

inductive FVal where
  | num : ℚ → FVal
  | nan : FVal
deriving DecidableEq

def isnanF : FVal → Bool
  | FVal.num _ => false
  | FVal.nan => true

structure CellInput where
  cost : ℕ → FVal
  postCost : ℕ → FVal
  gradNan : ℕ → Bool
  params : ℕ → List ℚ

def optErrMsg : String :=
  "SystemExit: Exiting the script due to unsupported optimizer type."

def lossErrMsg : String :=
  "ValueError: loss_type should be mse or wmse or attmse."

def emptyDataMsg : String :=
  "AttributeError: int object has no attribute requires_grad"

def nameErrMsg : String :=
  "NameError: name cost is not defined"

/-- One evaluation of `closure()` (paramSE.py lines 473-490): with no
datasets the loop body never runs, `cost` stays the integer 0 and
`cost.requires_grad` raises AttributeError; with at least one dataset an
unsupported `loss_type` raises ValueError on the first dataset; otherwise
the closure returns the cost value determined by the current parameters. -/
def closureEval (loss_type : String) (ndata : ℕ) (c : FVal) : Except String FVal :=
  if ndata = 0 then Except.error emptyDataMsg
  else if loss_type = "mse" ∨ loss_type = "wmse" ∨ loss_type = "attmse" then Except.ok c
  else Except.error lossErrMsg

/-- paramSE.py lines 523-528: the update is small when no state_dict entry
moved by more than `stop_threshold`; the comparison is on the RAW stored
values (`torch.norm(v - old_params[k])` of a scalar tensor is the absolute
difference), with no clamping and no rescaling to physical units. -/
def small_update (old_params new_params : List ℚ) (stop_threshold : ℚ) : Bool :=
  (List.zip old_params new_params).all (fun p => decide (|p.2 - p.1| ≤ stop_threshold))

/-- Follows the words of the spec and of claim C2 (NOT the source): compare
every parameter's CLAMPED PHYSICAL value, `clamp(n,0,1) * scale + lower`,
before and after the step, against the stop threshold. -/
def spec_phys_small_update (lower scale : ℚ) (old_params new_params : List ℚ)
    (stop_threshold : ℚ) : Bool :=
  (List.zip old_params new_params).all
    (fun p => decide (|(clampT p.2 0 1 * scale + lower) - (clampT p.1 0 1 * scale + lower)|
      < stop_threshold))

/-- Terminal states of the fit loop (spec section 4.5), recoverable from
which `return`/`break` fired in the source. -/
inductive FitOutcome where
  | converged
  | maxIterationsReached
  | divergedCost
  | divergedGrad
deriving DecidableEq

/-- The body of `for iter in range(1, max_iterations + 1)` (paramSE.py
lines 469-537), at iteration `k` with `fuel` iterations (including this
one) left in the range: evaluate the closure, return with the re-evaluated
cost if it is NaN (lines 493-495), return with the re-evaluated cost if a
gradient is NaN (lines 499-501), otherwise step and break if the update is
small (lines 524-536).  Falling out of the range with zero iterations
(`max_iterations = 0`) reads the never-assigned `cost` variable, a
NameError. -/
def cellGo (inp : CellInput) (loss_type : String) (ndata : ℕ) (thr : ℚ) :
    ℕ → ℕ → Except String (ℕ × FVal × FitOutcome)
  | _, 0 => Except.error nameErrMsg
  | k, fuel + 1 =>
      match closureEval loss_type ndata (inp.cost k) with
      | Except.error e => Except.error e
      | Except.ok c =>
          if isnanF c then Except.ok (k, inp.cost k, FitOutcome.divergedCost)
          else if inp.gradNan k then Except.ok (k, inp.cost k, FitOutcome.divergedGrad)
          else if small_update (inp.params k) (inp.params (k + 1)) thr then
            Except.ok (k, inp.postCost k, FitOutcome.converged)
          else if fuel = 0 then
            Except.ok (k, inp.postCost k, FitOutcome.maxIterationsReached)
          else cellGo inp loss_type ndata thr (k + 1) fuel

/-- Embedding of `param_based_spec_estimate_cell` (paramSE.py lines
403-537): an unsupported optimizer type warns and calls `sys.exit` before
the loop starts (lines 453-461); otherwise the fit loop runs from
iteration 1. -/
def param_based_spec_estimate_cell (inp : CellInput) (optimizer_type loss_type : String)
    (ndata : ℕ) (stop_threshold : ℚ) (max_iterations : ℕ) :
    Except String (ℕ × FVal × FitOutcome) :=
  if optimizer_type = "Adam" ∨ optimizer_type = "NNAT_LBFGS" then
    cellGo inp loss_type ndata stop_threshold 1 max_iterations
  else Except.error optErrMsg

/-- `np.argmin` over the per-case scores (paramSE.py lines 638-639):
numpy returns the index of the first NaN when one is present; otherwise the
first index attaining the minimum. -/
def argminNums : List FVal → ℕ → ℕ → ℚ → ℕ
  | [], _, best, _ => best
  | FVal.num q :: rest, i, best, bq =>
      if q < bq then argminNums rest (i + 1) i q else argminNums rest (i + 1) best bq
  | FVal.nan :: rest, i, best, bq => argminNums rest (i + 1) best bq

def argminF (l : List FVal) : ℕ :=
  match l.findIdx? (fun v => isnanF v) with
  | some i => i
  | none =>
      match l with
      | [] => 0
      | FVal.num q :: rest => argminNums rest 1 0 q
      | FVal.nan :: _ => 0

/-- The parallel dispatcher (paramSE.py lines 625-636) submits one
independent task per case (`pool.apply_async` in a comprehension) and
collects the results in order: a map of the cell over the case list. -/
def dispatch (cell : α → β) (case_list : List α) : List β := case_list.map cell

/-- Collecting results with `r.get()` re-raises the first worker exception
in the parent, aborting the whole run before any aggregation. -/
def run_results (cell : α → Except String β) : List α → Except String (List β)
  | [] => Except.ok []
  | c :: cs =>
      match cell c with
      | Except.error e => Except.error e
      | Except.ok r =>
          match run_results cell cs with
          | Except.error e => Except.error e
          | Except.ok rs => Except.ok (r :: rs)

lemma closureEval_valid (loss_type : String) (ndata : ℕ) (c : FVal)
    (hl : loss_type = "mse" ∨ loss_type = "wmse" ∨ loss_type = "attmse")
    (hn : 1 ≤ ndata) :
    closureEval loss_type ndata c = Except.ok c := by
  unfold closureEval
  rw [if_neg (by omega), if_pos hl]

lemma cellGo_step (inp : CellInput) (loss_type : String) (ndata : ℕ) (thr : ℚ)
    (hl : loss_type = "mse" ∨ loss_type = "wmse" ∨ loss_type = "attmse")
    (hn : 1 ≤ ndata) (k f : ℕ)
    (hnank : isnanF (inp.cost k) = false) (hgradk : inp.gradNan k = false) :
    cellGo inp loss_type ndata thr k (f + 1) =
      (if small_update (inp.params k) (inp.params (k + 1)) thr then
        Except.ok (k, inp.postCost k, FitOutcome.converged)
      else if f = 0 then
        Except.ok (k, inp.postCost k, FitOutcome.maxIterationsReached)
      else cellGo inp loss_type ndata thr (k + 1) f) := by
  have hce : ∀ c, closureEval loss_type ndata c = Except.ok c :=
    fun c => closureEval_valid loss_type ndata c hl hn
  simp only [cellGo, hce, hnank, hgradk, Bool.false_eq_true, if_false]

lemma cellGo_conv_iff (inp : CellInput) (loss_type : String) (ndata : ℕ) (thr : ℚ)
    (hl : loss_type = "mse" ∨ loss_type = "wmse" ∨ loss_type = "attmse")
    (hn : 1 ≤ ndata)
    (hnan : ∀ j, isnanF (inp.cost j) = false) (hgrad : ∀ j, inp.gradNan j = false) :
    ∀ (fuel start k : ℕ), 1 ≤ fuel →
      (cellGo inp loss_type ndata thr start fuel =
          Except.ok (k, inp.postCost k, FitOutcome.converged) ↔
        (start ≤ k ∧ k < start + fuel ∧
          small_update (inp.params k) (inp.params (k + 1)) thr = true ∧
          ∀ j, start ≤ j → j < k →
            small_update (inp.params j) (inp.params (j + 1)) thr = false)) := by
  intro fuel
  induction fuel with
  | zero => intro start k h; exact absurd h (by omega)
  | succ f ih =>
      intro start k _
      rw [cellGo_step inp loss_type ndata thr hl hn start f (hnan start) (hgrad start)]
      by_cases hsu : small_update (inp.params start) (inp.params (start + 1)) thr = true
      · rw [if_pos hsu]
        constructor
        · intro he
          have hpair := Except.ok.inj he
          have hks : k = start := (congrArg (fun p => p.1) hpair).symm
          subst hks
          exact ⟨le_refl k, by omega, hsu, fun j hj1 hj2 => absurd (lt_of_le_of_lt hj1 hj2) (lt_irrefl k)⟩
        · rintro ⟨hk1, hk2, hks, hmin⟩
          have hks2 : k = start := by
            by_contra hne
            have : start < k := by omega
            exact absurd hsu (by rw [hmin start (le_refl start) this]; simp)
          subst hks2
          rfl
      · rw [if_neg hsu]
        by_cases hf : f = 0
        · subst hf
          rw [if_pos rfl]
          constructor
          · intro he
            exact absurd (congrArg (fun r => match r with
              | Except.ok (_, _, o) => o
              | Except.error _ => FitOutcome.divergedCost) he) (by simp)
          · rintro ⟨hk1, hk2, hks, hmin⟩
            have : k = start := by omega
            subst this
            exact absurd hks hsu
        · rw [if_neg hf]
          rw [ih (start + 1) k (by omega)]
          constructor
          · rintro ⟨hk1, hk2, hks, hmin⟩
            exact ⟨by omega, by omega, hks, fun j hj1 hj2 => by
              by_cases hjs : j = start
              · subst hjs
                simpa using hsu
              · exact hmin j (by omega) hj2⟩
          · rintro ⟨hk1, hk2, hks, hmin⟩
            have hksne : start < k := by
              by_contra hcon
              have : k = start := by omega
              subst this
              exact absurd hks (by simpa using hsu)
            exact ⟨by omega, by omega, hks, fun j hj1 hj2 => hmin j (by omega) hj2⟩

lemma cellGo_reach (inp : CellInput) (loss_type : String) (ndata : ℕ) (thr : ℚ)
    (hl : loss_type = "mse" ∨ loss_type = "wmse" ∨ loss_type = "attmse")
    (hn : 1 ≤ ndata) :
    ∀ (d start fuel : ℕ), d < fuel →
      (∀ j, start ≤ j → j < start + d →
        isnanF (inp.cost j) = false ∧ inp.gradNan j = false ∧
          small_update (inp.params j) (inp.params (j + 1)) thr = false) →
      cellGo inp loss_type ndata thr start fuel =
        cellGo inp loss_type ndata thr (start + d) (fuel - d) := by
  intro d
  induction d with
  | zero => intro start fuel _ _; simp
  | succ d ih =>
      intro start fuel hd hok
      obtain ⟨f, rfl⟩ : ∃ f, fuel = f + 1 := ⟨fuel - 1, by omega⟩
      obtain ⟨h1, h2, h3⟩ := hok start (le_refl start) (by omega)
      rw [cellGo_step inp loss_type ndata thr hl hn start f h1 h2]
      rw [if_neg (by rw [h3]; simp)]
      rw [if_neg (by omega : ¬ f = 0)]
      have hrec := ih (start + 1) f (by omega) (fun j hj1 hj2 => hok j (by omega) (by omega))
      have e1 : start + 1 + d = start + (d + 1) := by omega
      have e2 : f - d = f + 1 - (d + 1) := by omega
      rw [e1, e2] at hrec
      exact hrec

/-- Claim C2 (amended): under a supported configuration and in the absence
of NaN costs and NaN gradients, the fit loop of
`param_based_spec_estimate_cell` stops with the Converged outcome at
iteration `k` iff `k` is the first iteration at which NO raw state_dict
entry — the unclamped, unrescaled normalized parameter, not the clamped
physical value — moves by more than `stop_threshold`; if no iteration up to
`max_iterations` satisfies that, the loop runs to `max_iterations`. -/
theorem C2_convergence_raw_iff (inp : CellInput) (optimizer_type loss_type : String)
    (ndata : ℕ) (thr : ℚ) (maxIter k : ℕ)
    (hopt : optimizer_type = "Adam" ∨ optimizer_type = "NNAT_LBFGS")
    (hl : loss_type = "mse" ∨ loss_type = "wmse" ∨ loss_type = "attmse")
    (hn : 1 ≤ ndata) (hmax : 1 ≤ maxIter)
    (hnan : ∀ j, isnanF (inp.cost j) = false) (hgrad : ∀ j, inp.gradNan j = false) :
    (param_based_spec_estimate_cell inp optimizer_type loss_type ndata thr maxIter =
        Except.ok (k, inp.postCost k, FitOutcome.converged) ↔
      (1 ≤ k ∧ k ≤ maxIter ∧
        small_update (inp.params k) (inp.params (k + 1)) thr = true ∧
        ∀ j, 1 ≤ j → j < k →
          small_update (inp.params j) (inp.params (j + 1)) thr = false)) ∧
    ((∀ j, 1 ≤ j → j ≤ maxIter →
        small_update (inp.params j) (inp.params (j + 1)) thr = false) →
      param_based_spec_estimate_cell inp optimizer_type loss_type ndata thr maxIter =
        Except.ok (maxIter, inp.postCost maxIter, FitOutcome.maxIterationsReached)) := by
  unfold param_based_spec_estimate_cell
  rw [if_pos hopt]
  constructor
  · rw [cellGo_conv_iff inp loss_type ndata thr hl hn hnan hgrad maxIter 1 k hmax]
    constructor
    · rintro ⟨a, b, c, d⟩; exact ⟨a, by omega, c, d⟩
    · rintro ⟨a, b, c, d⟩; exact ⟨a, by omega, c, d⟩
  · intro hall
    have hreach := cellGo_reach inp loss_type ndata thr hl hn (maxIter - 1) 1 maxIter
      (by omega) (fun j hj1 hj2 => ⟨hnan j, hgrad j, hall j hj1 (by omega)⟩)
    rw [hreach]
    have e1 : 1 + (maxIter - 1) = maxIter := by omega
    have e2 : maxIter - (maxIter - 1) = 1 := by omega
    rw [e1, e2]
    rw [cellGo_step inp loss_type ndata thr hl hn maxIter 0 (hnan maxIter) (hgrad maxIter)]
    rw [if_neg (by rw [hall maxIter (by omega) (le_refl maxIter)]; simp)]
    rw [if_pos rfl]

/-- One optimizable parameter with bound [0,1] (scale 1, lower 0); the step
of iteration 1 moves the raw normalized value from 2 to 3, both clamping to
the same physical value. -/
def c2Input : CellInput :=
  { cost := fun _ => FVal.num 3, postCost := fun _ => FVal.num 7,
    gradNan := fun _ => false,
    params := fun k => if k = 1 then [2] else [3] }

/-- Counterexample to C2 as stated: at iteration 1 every clamped physical
value moves by 0, strictly below the stop threshold, so the claim requires
a Converged stop at iteration 1; the code compares the raw values (change
1 > 1/1000) and terminates with MaxIterationsReached instead. -/
theorem C2_counterexample :
    spec_phys_small_update 0 1 (c2Input.params 1) (c2Input.params 2) (1 / 1000) = true ∧
    param_based_spec_estimate_cell c2Input "Adam" "mse" 1 (1 / 1000) 1 =
      Except.ok (1, FVal.num 7, FitOutcome.maxIterationsReached) := by
  constructor
  · norm_num [spec_phys_small_update, clampT, c2Input]
  · norm_num [param_based_spec_estimate_cell, cellGo, closureEval, small_update,
      isnanF, c2Input]

def c2wInput : CellInput :=
  { cost := fun _ => FVal.num 9, postCost := fun _ => FVal.num 9,
    gradNan := fun _ => false, params := fun _ => [0] }

/-- Witness for C2 (amended): a stationary parameter converges at
iteration 1. -/
theorem C2_convergence_raw_iff_witness :
    param_based_spec_estimate_cell c2wInput "Adam" "wmse" 1 (1 / 1000) 3 =
      Except.ok (1, c2wInput.postCost 1, FitOutcome.converged) :=
  (C2_convergence_raw_iff c2wInput "Adam" "wmse" 1 (1 / 1000) 3 1 (Or.inl rfl)
    (Or.inr (Or.inl rfl)) (by omega) (by omega) (fun _ => rfl) (fun _ => rfl)).1.mpr
    ⟨by omega, by omega, by norm_num [small_update, c2wInput],
      fun j hj1 hj2 => absurd hj2 (by omega)⟩

/-- Claim C3 (amended): when the cost evaluates to NaN at iteration `k`
(earlier iterations being clean and non-converging), the cell stops at
iteration `k` and returns the re-evaluated current cost — the NaN itself —
as the case's score; when instead a gradient NaN is detected at iteration
`k`, the cell stops at `k` returning the current (non-NaN) cost; and the
dispatcher is a per-case map, so each case's result depends only on its own
case.  (That a NaN-scored case is then SELECTED by `np.argmin`, contrary to
the claim, is exhibited in the counterexample.) -/
theorem C3_divergence_containment :
    (∀ (inp : CellInput) (optimizer_type loss_type : String) (ndata : ℕ) (thr : ℚ)
        (maxIter k : ℕ),
      (optimizer_type = "Adam" ∨ optimizer_type = "NNAT_LBFGS") →
      (loss_type = "mse" ∨ loss_type = "wmse" ∨ loss_type = "attmse") →
      1 ≤ ndata → 1 ≤ k → k ≤ maxIter →
      (∀ j, 1 ≤ j → j < k → isnanF (inp.cost j) = false ∧ inp.gradNan j = false ∧
        small_update (inp.params j) (inp.params (j + 1)) thr = false) →
      isnanF (inp.cost k) = true →
      param_based_spec_estimate_cell inp optimizer_type loss_type ndata thr maxIter =
        Except.ok (k, inp.cost k, FitOutcome.divergedCost)) ∧
    (∀ (inp : CellInput) (optimizer_type loss_type : String) (ndata : ℕ) (thr : ℚ)
        (maxIter k : ℕ),
      (optimizer_type = "Adam" ∨ optimizer_type = "NNAT_LBFGS") →
      (loss_type = "mse" ∨ loss_type = "wmse" ∨ loss_type = "attmse") →
      1 ≤ ndata → 1 ≤ k → k ≤ maxIter →
      (∀ j, 1 ≤ j → j < k → isnanF (inp.cost j) = false ∧ inp.gradNan j = false ∧
        small_update (inp.params j) (inp.params (j + 1)) thr = false) →
      isnanF (inp.cost k) = false → inp.gradNan k = true →
      param_based_spec_estimate_cell inp optimizer_type loss_type ndata thr maxIter =
        Except.ok (k, inp.cost k, FitOutcome.divergedGrad)) ∧
    (∀ (α β : Type) (cell : α → β) (case_list : List α) (i : ℕ),
      (dispatch cell case_list)[i]? = Option.map cell case_list[i]?) := by
  refine ⟨?_, ?_, ?_⟩
  · intro inp optimizer_type loss_type ndata thr maxIter k hopt hl hn hk1 hk2 hclean hnank
    unfold param_based_spec_estimate_cell
    rw [if_pos hopt]
    have hreach := cellGo_reach inp loss_type ndata thr hl hn (k - 1) 1 maxIter (by omega)
      (fun j hj1 hj2 => hclean j hj1 (by omega))
    rw [hreach]
    have e1 : 1 + (k - 1) = k := by omega
    rw [e1]
    obtain ⟨f, hf⟩ : ∃ f, maxIter - (k - 1) = f + 1 := ⟨maxIter - k, by omega⟩
    rw [hf]
    have hce : ∀ c, closureEval loss_type ndata c = Except.ok c :=
      fun c => closureEval_valid loss_type ndata c hl hn
    simp only [cellGo, hce, hnank, if_true]
  · intro inp optimizer_type loss_type ndata thr maxIter k hopt hl hn hk1 hk2 hclean hnank hgradk
    unfold param_based_spec_estimate_cell
    rw [if_pos hopt]
    have hreach := cellGo_reach inp loss_type ndata thr hl hn (k - 1) 1 maxIter (by omega)
      (fun j hj1 hj2 => hclean j hj1 (by omega))
    rw [hreach]
    have e1 : 1 + (k - 1) = k := by omega
    rw [e1]
    obtain ⟨f, hf⟩ : ∃ f, maxIter - (k - 1) = f + 1 := ⟨maxIter - k, by omega⟩
    rw [hf]
    have hce : ∀ c, closureEval loss_type ndata c = Except.ok c :=
      fun c => closureEval_valid loss_type ndata c hl hn
    simp only [cellGo, hce, hnank, hgradk, Bool.false_eq_true, if_false, if_true]
  · intro α β cell case_list i
    unfold dispatch
    exact List.getElem?_map cell case_list i

/-- Costs: finite 5 at iteration 1, NaN from iteration 2 on; the parameter
moves from 0 to 10 at iteration 1, so the loop does not converge early. -/
def c3Input : CellInput :=
  { cost := fun k => if k = 1 then FVal.num 5 else FVal.nan,
    postCost := fun _ => FVal.num 5,
    gradNan := fun _ => false,
    params := fun k => if k = 1 then [0] else [10] }

/-- Counterexample to C3 as stated: the cell hits a NaN cost at iteration 2
and returns the NaN itself — NOT the last finite cost 5 — and `np.argmin`
over the scores [3, NaN] selects index 1, the diverged case, even though
its sibling case finished with finite cost 3. -/
theorem C3_counterexample :
    param_based_spec_estimate_cell c3Input "Adam" "mse" 1 (1 / 1000) 5 =
      Except.ok (2, FVal.nan, FitOutcome.divergedCost) ∧
    FVal.nan ≠ FVal.num 5 ∧
    argminF [FVal.num 3, FVal.nan] = 1 := by
  refine ⟨?_, by decide, by decide⟩
  norm_num [param_based_spec_estimate_cell, cellGo, closureEval, small_update,
    isnanF, c3Input]

/-- Witness for C3 (amended), applying the NaN-cost branch at `c3Input`
and the per-case-map fact at a concrete list. -/
theorem C3_divergence_containment_witness :
    param_based_spec_estimate_cell c3Input "Adam" "mse" 1 (1 / 1000) 5 =
      Except.ok (2, c3Input.cost 2, FitOutcome.divergedCost) ∧
    (dispatch (fun n : ℕ => n + 1) [3, 4])[0]? = Option.map (fun n : ℕ => n + 1) ([3, 4] : List ℕ)[0]? :=
  ⟨C3_divergence_containment.1 c3Input "Adam" "mse" 1 (1 / 1000) 5 2 (Or.inl rfl)
      (Or.inl rfl) (by omega) (by omega) (by omega)
      (fun j hj1 hj2 => by
        have hj : j = 1 := by omega
        subst hj
        exact ⟨rfl, rfl, by norm_num [small_update, c3Input]⟩)
      rfl,
    C3_divergence_containment.2.2 ℕ ℕ (fun n : ℕ => n + 1) [3, 4] 0⟩

/-- Claim C9: an optimizer type outside Adam/NNAT_LBFGS makes the cell warn
and `sys.exit` before the loop ever starts; a loss type outside
mse/wmse/attmse makes the first `closure()` call raise ValueError at
iteration 1 (with at least one dataset, the first loop pass hits the
unsupported-loss branch); and the dispatcher's `r.get()` re-raises a worker
error, so the whole run aborts with the diagnostic and produces no fitted
result. -/
theorem C9_config_error_fatal :
    (∀ (inp : CellInput) (optimizer_type loss_type : String) (ndata : ℕ) (thr : ℚ)
        (maxIter : ℕ),
      ¬(optimizer_type = "Adam" ∨ optimizer_type = "NNAT_LBFGS") →
      param_based_spec_estimate_cell inp optimizer_type loss_type ndata thr maxIter =
        Except.error optErrMsg) ∧
    (∀ (inp : CellInput) (optimizer_type loss_type : String) (ndata : ℕ) (thr : ℚ)
        (maxIter : ℕ),
      (optimizer_type = "Adam" ∨ optimizer_type = "NNAT_LBFGS") →
      ¬(loss_type = "mse" ∨ loss_type = "wmse" ∨ loss_type = "attmse") →
      1 ≤ ndata → 1 ≤ maxIter →
      param_based_spec_estimate_cell inp optimizer_type loss_type ndata thr maxIter =
        Except.error lossErrMsg) ∧
    (∀ (α β : Type) (cell : α → Except String β) (case_list : List α) (msg : String),
      case_list ≠ [] → (∀ c ∈ case_list, cell c = Except.error msg) →
      run_results cell case_list = Except.error msg) := by
  refine ⟨?_, ?_, ?_⟩
  · intro inp optimizer_type loss_type ndata thr maxIter hopt
    unfold param_based_spec_estimate_cell
    rw [if_neg hopt]
  · intro inp optimizer_type loss_type ndata thr maxIter hopt hloss hn hmax
    unfold param_based_spec_estimate_cell
    rw [if_pos hopt]
    obtain ⟨f, hf⟩ : ∃ f, maxIter = f + 1 := ⟨maxIter - 1, by omega⟩
    rw [hf]
    have hce : closureEval loss_type ndata (inp.cost 1) = Except.error lossErrMsg := by
      unfold closureEval
      rw [if_neg (by omega), if_neg hloss]
    simp only [cellGo, hce]
  · intro α β cell case_list msg hne hall
    cases case_list with
    | nil => exact absurd rfl hne
    | cons c cs =>
        simp only [run_results]
        rw [hall c (List.mem_cons_self c cs)]

def c9Input : CellInput :=
  { cost := fun _ => FVal.num 1, postCost := fun _ => FVal.num 1,
    gradNan := fun _ => false, params := fun _ => [0] }

/-- Witness for C9: an unknown optimizer name and an unknown loss name each
abort the cell with the diagnostic, and a run over one failing case aborts
the whole run. -/
theorem C9_config_error_fatal_witness :
    param_based_spec_estimate_cell c9Input "SGD" "wmse" 1 (1 / 1000) 3 =
      Except.error optErrMsg ∧
    param_based_spec_estimate_cell c9Input "Adam" "huber" 1 (1 / 1000) 3 =
      Except.error lossErrMsg ∧
    run_results (fun _ : ℕ => (Except.error "boom" : Except String ℕ)) [0] =
      Except.error "boom" :=
  ⟨C9_config_error_fatal.1 c9Input "SGD" "wmse" 1 (1 / 1000) 3 (by decide),
   C9_config_error_fatal.2.1 c9Input "Adam" "huber" 1 (1 / 1000) 3 (Or.inl rfl)
     (by decide) (by omega) (by omega),
   C9_config_error_fatal.2.2 ℕ ℕ (fun _ => Except.error "boom") [0] "boom"
     (by decide) (fun c _ => rfl)⟩

/-! ## Combinatorial enumerator (paramSE.py, param_based_spec_estimate, lines 613-636)

The dispatcher expands each filter and scintillator slot into its candidate
materials, takes `itertools.product` over all slots, regroups each flat
tuple into its filter part and scintillator part with `nested_list`, and
submits one optimization task per resulting case. -/

structure MaterialM where
  formula : String
  density : ℚ
deriving DecidableEq

structure FilterCfg where
  possible_mat : List MaterialM
  fltr_mat : Option MaterialM
  fltr_th : ℚ
deriving DecidableEq

structure ScintCfg where
  possible_mat : List MaterialM
  scint_mat : Option MaterialM
  scint_th : ℚ
deriving DecidableEq

/-- Modelled from the spec: `Filter.next_psb_fltr_mat` is defined in
`xspec/defs.py`, which is not among the provided sources (only its caller
at paramSE.py line 615 is).  Per spec section 4.4, each slot with candidate
materials expands, independently per slot, into one case per candidate, so
the generator yields one material-resolved copy of the configuration per
entry of `possible_mat`. -/
def next_psb_fltr_mat (f : FilterCfg) : List FilterCfg :=
  f.possible_mat.map (fun m => { f with fltr_mat := some m })

/-- Modelled from the spec: `Scintillator.next_psb_scint_mat`
(xspec/defs.py, absent from the provided sources), one material-resolved
copy per candidate scintillator material, as for filters. -/
def next_psb_scint_mat (s : ScintCfg) : List ScintCfg :=
  s.possible_mat.map (fun m => { s with scint_mat := some m })

/-- `itertools.product(*lists)`: all tuples taking one element per list,
leftmost position varying slowest. -/
def itprod : List (List α) → List (List α)
  | [] => [[]]
  | l :: ls => l.bind (fun x => (itprod ls).map (fun t => x :: t))

/-- Modelled from the spec: `nested_list` (imported from `xspec._utils` in
the released package; the provided `_utils.py` does not contain it)
regroups the flat tuple produced by `itertools.product` back into the
per-kind sublists, splitting at the number of filter slots (paramSE.py
lines 621-623). -/
def regroup_case (nf : ℕ) (tup : List (FilterCfg ⊕ ScintCfg)) :
    List FilterCfg × List ScintCfg :=
  ((tup.take nf).filterMap (fun s => match s with
      | Sum.inl f => some f
      | Sum.inr _ => none),
   (tup.drop nf).filterMap (fun s => match s with
      | Sum.inl _ => none
      | Sum.inr sc => some sc))

/-- paramSE.py lines 615-623: the full case list of
`param_based_spec_estimate`, one entry per combination of per-slot
candidate materials. -/
def param_based_spec_estimate_cases (filters : List FilterCfg)
    (scintillators : List ScintCfg) : List (List FilterCfg × List ScintCfg) :=
  let pf := filters.map (fun f => (next_psb_fltr_mat f).map Sum.inl)
  let ps := scintillators.map (fun s => (next_psb_scint_mat s).map Sum.inr)
  (itprod (pf ++ ps)).map (regroup_case filters.length)

lemma itprod_length : ∀ (ls : List (List α)),
    (itprod ls).length = (ls.map List.length).prod := by
  intro ls
  induction ls with
  | nil => rfl
  | cons l ls ih =>
      simp only [itprod, List.length_bind, List.map_cons, List.prod_cons]
      have hmap : ∀ x, ((itprod ls).map (fun t => x :: t)).length = (itprod ls).length :=
        fun x => List.length_map _ _
      calc (l.map (fun x => ((itprod ls).map (fun t => x :: t)).length)).sum
          = (l.map (fun _ => (itprod ls).length)).sum := by
            exact congrArg List.sum (List.map_congr_left (fun x _ => hmap x))
        _ = l.length * (itprod ls).length := by
            rw [List.map_const', List.sum_replicate, smul_eq_mul]
        _ = l.length * (ls.map List.length).prod := by rw [ih]

/-- A filter slot with two candidate materials. -/
def fltr2W : FilterCfg :=
  { possible_mat := [{ formula := "Al", density := 3 }, { formula := "Cu", density := 9 }],
    fltr_mat := none, fltr_th := 1 }

/-- A scintillator slot with seven candidate materials. -/
def scint7W : ScintCfg :=
  { possible_mat :=
      [{ formula := "CsI", density := 5 }, { formula := "NaI", density := 4 },
       { formula := "BGO", density := 7 }, { formula := "CdWO4", density := 8 },
       { formula := "LSO", density := 7 }, { formula := "YAG", density := 5 },
       { formula := "GOS", density := 7 }],
    scint_mat := none, scint_th := 1 }

/-- Claim C6: `param_based_spec_estimate` dispatches exactly one case per
element of the Cartesian product over all filter and scintillator slots —
the case count is the product of the per-slot candidate counts — results
are a per-case map (case `i`'s result is `cell` of case `i`, independent of
every other case), and 2 filter materials x 7 scintillator materials give
14 cases. -/
theorem C6_case_enumeration :
    (∀ (filters : List FilterCfg) (scintillators : List ScintCfg),
      (param_based_spec_estimate_cases filters scintillators).length =
        (filters.map (fun f => f.possible_mat.length)).prod *
          (scintillators.map (fun s => s.possible_mat.length)).prod) ∧
    (∀ (α β : Type) (cell : α → β) (case_list : List α) (i : ℕ),
      (dispatch cell case_list)[i]? = Option.map cell case_list[i]?) ∧
    (param_based_spec_estimate_cases [fltr2W] [scint7W]).length = 14 := by
  refine ⟨?_, ?_, ?_⟩
  · intro filters scintillators
    unfold param_based_spec_estimate_cases
    rw [List.length_map, itprod_length, List.map_append, List.prod_append]
    rw [List.map_map, List.map_map]
    congr 1
    · exact congrArg List.prod (List.map_congr_left (fun f _ => by
        simp [next_psb_fltr_mat, Function.comp]))
    · exact congrArg List.prod (List.map_congr_left (fun s _ => by
        simp [next_psb_scint_mat, Function.comp]))
  · intro α β cell case_list i
    unfold dispatch
    exact List.getElem?_map cell case_list i
  · decide
